import Mathlib

/-!
# Verification of the nutrition aggregation core of `nutrasmart`

Shallow embedding of the timezone-aware nutrition aggregation engine in
`src/app/(tabs)/profile.tsx` and the timezone store in
`src/hooks/use-timezone.tsx`.

## Modelling conventions

* A calendar date `YYYY-MM-DD` is represented by its civil day number
  (days since 1970-01-01).  The JavaScript code compares zero-padded ISO
  date strings lexicographically (`localDateStr >= startDate` etc.);
  for zero-padded ISO dates that order coincides with the order of day
  numbers, so `≤` on day numbers is the faithful image of the string
  comparison.  `daysFromCivil` (the standard civil-calendar conversion)
  ties concrete `(year, month, day)` triples to day numbers.
* A UTC instant is represented by its epoch minute count (an `Int`).
* An IANA timezone is modelled by its UTC-offset function: for each UTC
  instant, the offset in minutes that the zone applies at that instant.
  This captures DST (the offset varies with the instant).
  `Date.prototype.toLocaleDateString("en-CA", { timeZone })` formats the
  civil date of the instant shifted by that offset, which is
  `(t + offset t) / 1440` rounded toward negative infinity.
* JavaScript numbers on the nutrient fields are modelled by `Int`
  (nothing in the claims depends on fractional values); a nullable
  database column is an `Option Int`, and the code's `x || 0` guard is
  `Option.getD · 0`.
-/

/-- A row of the `meals` table as selected by `fetchNutritionSummary`
(`logged_at` plus the six nutrient columns; the unused `id` column is
omitted).  `logged_at` is the UTC epoch minute of the meal; nutrient
columns are nullable. -/
structure Meal where
  logged_at : Int
  total_calories : Option Int
  total_protein : Option Int
  total_carbs : Option Int
  total_fat : Option Int
  total_fiber : Option Int
  total_sodium : Option Int
deriving Repr, DecidableEq

/-- The `NutritionSummary` value stored in `dailyMap` by the daily path of
`fetchNutritionSummary` (profile.tsx lines 274-322): a bucket key `date`
plus zero-initialised running totals and a meal count. -/
structure NutritionSummary where
  date : Int
  total_calories : Int
  total_protein : Int
  total_carbs : Int
  total_fat : Int
  total_fiber : Int
  total_sodium : Int
  meal_count : Nat
deriving Repr, DecidableEq

/-- An IANA timezone, abstracted to its UTC-offset function (minutes of
offset applied at a given UTC epoch minute).  DST is captured by the
dependence on the instant. -/
structure Timezone where
  offset : Int → Int

/-- Civil-calendar day number of `(y, m, d)` relative to 1970-01-01
(standard days-from-civil algorithm, floor-division form). -/
def daysFromCivil (y m d : Int) : Int :=
  let yAdj : Int := if m ≤ 2 then y - 1 else y
  let era : Int := yAdj.fdiv 400
  let yoe : Int := yAdj - era * 400
  let mp : Int := if m > 2 then m - 3 else m + 9
  let doy : Int := (153 * mp + 2).fdiv 5 + d - 1
  let doe : Int := yoe * 365 + yoe.fdiv 4 - yoe.fdiv 100 + doy
  era * 146097 + doe - 719468

/-- `convertUTCToLocal` (profile.tsx lines 187-195): the local calendar
date of a UTC instant in the given timezone, i.e. the civil day number of
the instant shifted by the zone's offset at that instant.  This is the
day-number image of
`new Date(utc).toLocaleDateString("en-CA", { timeZone })`. -/
def convertUTCToLocal (tz : Timezone) (t : Int) : Int :=
  (t + tz.offset t).fdiv 1440

/-- Start of US daylight-saving time 2025 (2025-03-09 02:00 PST =
2025-03-09 10:00 UTC), in epoch minutes. -/
def la2025dstStart : Int := daysFromCivil 2025 3 9 * 1440 + 10 * 60

/-- End of US daylight-saving time 2025 (2025-11-02 02:00 PDT =
2025-11-02 09:00 UTC), in epoch minutes. -/
def la2025dstEnd : Int := daysFromCivil 2025 11 2 * 1440 + 9 * 60

/-- `America/Los_Angeles` around 2025: UTC−8 (PST) outside the 2025 DST
window, UTC−7 (PDT) inside it. -/
def America_Los_Angeles : Timezone :=
  ⟨fun t => if la2025dstStart ≤ t ∧ t < la2025dstEnd then -420 else -480⟩

/-- `Asia/Kolkata`: fixed offset UTC+5:30. -/
def Asia_Kolkata : Timezone := ⟨fun _ => 330⟩

/-- `UTC`: zero offset. -/
def UTCZone : Timezone := ⟨fun _ => 0⟩

/-- `eachDayOfInterval` (date-fns) over day numbers: the ascending list of
calendar days from `startDate` to `endDate`, inclusive.  date-fns
enumerates by calendar-day increments (`addDays`), so a DST transition
inside the interval still contributes exactly one entry per calendar
day. -/
def dayRange (startDate endDate : Int) : List Int :=
  (List.range (endDate - startDate + 1).toNat).map
    (fun i : Nat => startDate + (i : Int))

/-- The zero-initialised `NutritionSummary` that `fetchNutritionSummary`
seeds `dailyMap` with for each enumerated day (profile.tsx lines
281-293). -/
def emptyBucket (d : Int) : NutritionSummary :=
  { date := d, total_calories := 0, total_protein := 0, total_carbs := 0
    total_fat := 0, total_fiber := 0, total_sodium := 0, meal_count := 0 }

/-- The accumulation block of the daily path (profile.tsx lines 313-320):
add the meal's nutrient fields (with `|| 0` null-coercion) into the bucket
and increment `meal_count`. -/
def addMealToBucket (b : NutritionSummary) (m : Meal) : NutritionSummary :=
  { b with
    total_calories := b.total_calories + m.total_calories.getD 0
    total_protein := b.total_protein + m.total_protein.getD 0
    total_carbs := b.total_carbs + m.total_carbs.getD 0
    total_fat := b.total_fat + m.total_fat.getD 0
    total_fiber := b.total_fiber + m.total_fiber.getD 0
    total_sodium := b.total_sodium + m.total_sodium.getD 0
    meal_count := b.meal_count + 1 }

/-- One iteration of the `mealsData?.forEach` loop of the daily path
(profile.tsx lines 296-322), acting on the map represented as an
insertion-ordered association list: compute the meal's local date; if it
lies in `[startDate, endDate]` (the code's lexicographic string test on
ISO dates), update the existing entry with that key — inserting a fresh
zero entry first if the key were absent (`dailyMap.has` guard; dead once
the map is pre-seeded) — otherwise leave the map unchanged. -/
def foldMeal (startDate endDate : Int) (tz : Timezone)
    (acc : List NutritionSummary) (m : Meal) : List NutritionSummary :=
  let d := convertUTCToLocal tz m.logged_at
  if startDate ≤ d ∧ d ≤ endDate then
    if acc.any (fun b => b.date = d) then
      acc.map (fun b => if b.date = d then addMealToBucket b m else b)
    else
      acc ++ [addMealToBucket (emptyBucket d) m]
  else
    acc

/-- Insertion step of the final ascending sort
(`.sort((a, b) => a.date!.localeCompare(b.date!))`, profile.tsx lines
324-326), on day numbers. -/
def insertByDate (b : NutritionSummary) : List NutritionSummary → List NutritionSummary
  | [] => [b]
  | c :: cs => if b.date ≤ c.date then b :: c :: cs else c :: insertByDate b cs

/-- The final ascending sort of the bucket values by date key. -/
def sortByDate (l : List NutritionSummary) : List NutritionSummary :=
  l.foldr insertByDate []

/-- The daily branch of `fetchNutritionSummary` (profile.tsx lines
258-329), as a pure function of the request: pre-seed one zero bucket per
calendar day of `[startDate, endDate]`, fold every fetched meal through
the local-date attribution loop, and emit the bucket values sorted
ascending by date key. -/
def fetchNutritionSummaryDaily (startDate endDate : Int) (tz : Timezone)
    (meals : List Meal) : List NutritionSummary :=
  sortByDate
    (meals.foldl (foldMeal startDate endDate tz)
      ((dayRange startDate endDate).map emptyBucket))

/-- The four reporting periods of the period selector. -/
inductive Period
  | daily
  | weekly
  | monthly
  | yearly
deriving Repr, DecidableEq

/-- `MAX_DAILY_CHART_POINTS` (profile.tsx line 101). -/
def MAX_DAILY_CHART_POINTS : Int := 29

/-- `isRangeDisabled` (profile.tsx lines 221-231): for a non-`daily`
period always `false`; for `daily`, the inclusive day span
(`differenceInDays(to, from) + 1`) must not exceed
`MAX_DAILY_CHART_POINTS`. -/
def isRangeDisabled (period : Period) (startDate endDate : Int) : Bool :=
  if period ≠ Period.daily then false
  else
    let days := endDate - startDate + 1
    decide (days > MAX_DAILY_CHART_POINTS)

/-- The range-allowed predicate of the spec (§4.3): the negation of
`isRangeDisabled`. -/
def isRangeAllowed (period : Period) (startDate endDate : Int) : Bool :=
  !isRangeDisabled period startDate endDate

/-- Accumulator of `getTotalStats` (profile.tsx lines 563-582). -/
structure TotalStats where
  totalCalories : Int
  totalProtein : Int
  totalCarbs : Int
  totalFat : Int
  totalMeals : Nat
  daysLogged : Nat
deriving Repr, DecidableEq

/-- One step of the `summaryData.reduce` in `getTotalStats`. -/
def totalStatsStep (acc : TotalStats) (item : NutritionSummary) : TotalStats :=
  { totalCalories := acc.totalCalories + item.total_calories
    totalProtein := acc.totalProtein + item.total_protein
    totalCarbs := acc.totalCarbs + item.total_carbs
    totalFat := acc.totalFat + item.total_fat
    totalMeals := acc.totalMeals + item.meal_count
    daysLogged := acc.daysLogged + (if item.meal_count > 0 then 1 else 0) }

/-- `getTotalStats` (profile.tsx lines 563-582): reduce the displayed
summary rows into grand totals, a total meal count, and the number of
rows with a positive meal count. -/
def getTotalStats (summaryData : List NutritionSummary) : TotalStats :=
  summaryData.foldl totalStatsStep
    { totalCalories := 0, totalProtein := 0, totalCarbs := 0, totalFat := 0
      totalMeals := 0, daysLogged := 0 }

/-- `avgDailyCalories` (profile.tsx lines 727-730):
`stats.daysLogged > 0 ? Math.round(stats.totalCalories / stats.daysLogged) : 0`.
`Math.round` rounds half toward positive infinity, which is Mathlib's
`round` on `ℚ`. -/
def avgDailyCalories (stats : TotalStats) : Int :=
  if stats.daysLogged > 0 then
    round ((stats.totalCalories : ℚ) / (stats.daysLogged : ℚ))
  else 0

/-- The persisted fields of the zustand timezone store
(use-timezone.tsx lines 5-12): the stored zone string and the
auto-detect flag.  These are the only state fields of the store. -/
structure TzState where
  timezone : String
  isAutoDetect : Bool
deriving Repr, DecidableEq

/-- `getCurrentTimezone` (use-timezone.tsx lines 38-41).  The impure
`Intl.DateTimeFormat().resolvedOptions().timeZone` read is modelled by
passing the current device zone as the argument `device`; the function
consults it on every call (no caching). -/
def getCurrentTimezone (device : String) (s : TzState) : String :=
  if s.isAutoDetect then device else s.timezone

/-- `setTimezone` (use-timezone.tsx line 24): store the zone and clear
auto-detect. -/
def setTimezone (zone : String) (_s : TzState) : TzState :=
  { timezone := zone, isAutoDetect := false }

/-- `resetToAuto` (use-timezone.tsx lines 32-36): snapshot the device
zone and set auto-detect. -/
def resetToAuto (device : String) (_s : TzState) : TzState :=
  { timezone := device, isAutoDetect := true }

/-- `setAutoDetect` (use-timezone.tsx lines 26-30): set the flag to
`auto`; the stored zone becomes the current device zone when `auto` is
`true` and is kept (`get().timezone`) when `auto` is `false`. -/
def setAutoDetect (device : String) (auto : Bool) (s : TzState) : TzState :=
  { isAutoDetect := auto, timezone := if auto then device else s.timezone }

/-- Outcome of the record-source query (`supabase.from("meals")...`):
either the fetched rows or an error message. -/
abbrev FetchResult := Except String (List Meal)

/-- The effect of one `fetchNutritionSummary` call (daily path) on the
`summaryData` state, as a function of the fetch outcome (profile.tsx
lines 243-355): on success the computed buckets replace the state
(`setSummaryData(data)`); on failure the `catch` block only logs
(`console.error`) and `setSummaryData` is never called, so the previous
state is kept.  No error value is surfaced to the caller. -/
def fetchNutritionSummaryUpdate (prev : List NutritionSummary)
    (startDate endDate : Int) (tz : Timezone)
    (fetch : FetchResult) : List NutritionSummary :=
  match fetch with
  | .ok mealsData => fetchNutritionSummaryDaily startDate endDate tz mealsData
  | .error _ => prev

/-- The effect of one `fetchMeals` call on the `meals` state
(profile.tsx lines 495-548): on success the fetched rows filtered to the
local-date range replace the state; on failure the `catch` block logs and
executes `setMeals([])`, replacing the previous state with the empty
list.  No error value is surfaced to the caller. -/
def fetchMealsUpdate (_prev : List Meal) (startDate endDate : Int)
    (tz : Timezone) (fetch : FetchResult) : List Meal :=
  match fetch with
  | .ok data =>
      data.filter (fun meal =>
        let d := convertUTCToLocal tz meal.logged_at
        decide (startDate ≤ d ∧ d ≤ endDate))
  | .error _ => []

/-- `setSummaryData` (the React state setter): unconditionally replaces
the rendered summary state with the completing request's data.
`fetchNutritionSummary` carries no request token or abort guard, so every
completion calls this, whatever request it belongs to. -/
def setSummaryData (data : List NutritionSummary)
    (_prev : List NutritionSummary) : List NutritionSummary :=
  data

/-- The rendered `summaryData` state after a sequence of in-flight
`fetchNutritionSummary` requests complete, listed in resolution order:
each completion runs `setSummaryData` on its own result (profile.tsx
line 329 sits inside the async function with no token check). -/
def renderAfterCompletions (s0 : List NutritionSummary)
    (completions : List (List NutritionSummary)) : List NutritionSummary :=
  completions.foldl (fun prev data => setSummaryData data prev) s0

/-- Derived form used by the theorems: fold one meal into one bucket iff
the meal's local date is in range and equals that bucket's date key
(the per-bucket view of one `forEach` iteration). -/
def addMealIfMatch (startDate endDate : Int) (tz : Timezone)
    (b : NutritionSummary) (m : Meal) : NutritionSummary :=
  let d := convertUTCToLocal tz m.logged_at
  if startDate ≤ d ∧ d ≤ endDate ∧ d = b.date then addMealToBucket b m else b

/-- Derived form used by the theorems: the final content of one bucket,
obtained by folding the whole meal list through `addMealIfMatch`. -/
def applyMeals (startDate endDate : Int) (tz : Timezone)
    (meals : List Meal) (b : NutritionSummary) : NutritionSummary :=
  meals.foldl (addMealIfMatch startDate endDate tz) b

/-- The meal's local date lies in the inclusive range, as a Bool. -/
def inRangeMeal (startDate endDate : Int) (tz : Timezone) (m : Meal) : Bool :=
  decide (startDate ≤ convertUTCToLocal tz m.logged_at ∧
    convertUTCToLocal tz m.logged_at ≤ endDate)

/-- The meal is attributed to the bucket with key `d`: its local date is
in range and equals `d`, as a Bool. -/
def matchesBucket (startDate endDate : Int) (tz : Timezone) (d : Int)
    (m : Meal) : Bool :=
  decide (startDate ≤ convertUTCToLocal tz m.logged_at ∧
    convertUTCToLocal tz m.logged_at ≤ endDate ∧
    convertUTCToLocal tz m.logged_at = d)

def c3meal : Meal :=
  { logged_at := daysFromCivil 2025 1 1 * 1440 + (23 * 60 + 30)
    total_calories := some 500, total_protein := none, total_carbs := none
    total_fat := none, total_fiber := none, total_sodium := none }

def c7buckets : List NutritionSummary :=
  [{ emptyBucket 0 with total_calories := 500, meal_count := 1 },
   { emptyBucket 1 with total_calories := 1, meal_count := 1 }]

def c4prevMeals : List Meal :=
  [{ logged_at := 30, total_calories := some 100, total_protein := none
     total_carbs := none, total_fat := none, total_fiber := none
     total_sodium := none }]

def c5resultA : List NutritionSummary := fetchNutritionSummaryDaily 0 1 UTCZone []

def c5resultB : List NutritionSummary := fetchNutritionSummaryDaily 0 2 UTCZone []

def dstMeals : List Meal :=
  [{ logged_at := daysFromCivil 2025 3 9 * 1440 + (9 * 60 + 30)
     total_calories := some 400, total_protein := none, total_carbs := none
     total_fat := none, total_fiber := none, total_sodium := none }]

def c2meals : List Meal :=
  [{ logged_at := 30, total_calories := some 500, total_protein := none
     total_carbs := none, total_fat := none, total_fiber := none
     total_sodium := none },
   { logged_at := 1500, total_calories := none, total_protein := some 20
     total_carbs := none, total_fat := none, total_fiber := none
     total_sodium := none },
   { logged_at := 10000, total_calories := some 900, total_protein := none
     total_carbs := none, total_fat := none, total_fiber := none
     total_sodium := none }]

theorem mem_dayRange {d startDate endDate : Int} :
    d ∈ dayRange startDate endDate ↔ startDate ≤ d ∧ d ≤ endDate := by
  simp only [dayRange, List.mem_map, List.mem_range]
  constructor
  · rintro ⟨i, hi, rfl⟩
    omega
  · rintro ⟨h1, h2⟩
    exact ⟨(d - startDate).toNat, by omega, by omega⟩

theorem dayRange_pairwise (startDate endDate : Int) :
    (dayRange startDate endDate).Pairwise (· < ·) := by
  unfold dayRange
  exact (List.pairwise_lt_range _).map _ (fun a b h => by omega)

theorem dayRange_length (startDate endDate : Int) :
    (dayRange startDate endDate).length = (endDate - startDate + 1).toNat := by
  simp [dayRange]

theorem addMealToBucket_date (b : NutritionSummary) (m : Meal) :
    (addMealToBucket b m).date = b.date := rfl

theorem addMealIfMatch_date (startDate endDate : Int) (tz : Timezone)
    (b : NutritionSummary) (m : Meal) :
    (addMealIfMatch startDate endDate tz b m).date = b.date := by
  simp only [addMealIfMatch]
  split <;> rfl

theorem applyMeals_date (startDate endDate : Int) (tz : Timezone)
    (meals : List Meal) (b : NutritionSummary) :
    (applyMeals startDate endDate tz meals b).date = b.date := by
  induction meals generalizing b with
  | nil => rfl
  | cons m ms ih =>
      simp only [applyMeals, List.foldl_cons] at *
      rw [ih, addMealIfMatch_date]

theorem foldMeal_eq_map (startDate endDate : Int) (tz : Timezone)
    (L : List NutritionSummary) (m : Meal)
    (hm : startDate ≤ convertUTCToLocal tz m.logged_at ∧
        convertUTCToLocal tz m.logged_at ≤ endDate →
        convertUTCToLocal tz m.logged_at ∈ L.map (fun b => b.date)) :
    foldMeal startDate endDate tz L m
      = L.map (fun b => addMealIfMatch startDate endDate tz b m) := by
  simp only [foldMeal]
  by_cases hr : startDate ≤ convertUTCToLocal tz m.logged_at ∧
      convertUTCToLocal tz m.logged_at ≤ endDate
  · rw [if_pos hr]
    have hmem := hm hr
    have hany : L.any (fun b => b.date = convertUTCToLocal tz m.logged_at) = true := by
      simp only [List.any_eq_true, decide_eq_true_eq]
      obtain ⟨b, hb, hbd⟩ := List.mem_map.mp hmem
      exact ⟨b, hb, hbd⟩
    rw [if_pos hany]
    refine List.map_congr_left (fun b hb => ?_)
    simp only [addMealIfMatch]
    by_cases hd : b.date = convertUTCToLocal tz m.logged_at
    · rw [if_pos hd, if_pos ⟨hr.1, hr.2, hd.symm⟩]
    · rw [if_neg hd, if_neg (fun hc => hd hc.2.2.symm)]
  · rw [if_neg hr]
    have : L.map (fun b => addMealIfMatch startDate endDate tz b m) = L.map id := by
      refine List.map_congr_left (fun b hb => ?_)
      simp only [addMealIfMatch, id]
      rw [if_neg (fun hc => hr ⟨hc.1, hc.2.1⟩)]
    rw [this, List.map_id]

theorem foldl_foldMeal_eq (startDate endDate : Int) (tz : Timezone)
    (meals : List Meal) (L : List NutritionSummary)
    (hcov : ∀ m ∈ meals,
      startDate ≤ convertUTCToLocal tz m.logged_at ∧
        convertUTCToLocal tz m.logged_at ≤ endDate →
        convertUTCToLocal tz m.logged_at ∈ L.map (fun b => b.date)) :
    meals.foldl (foldMeal startDate endDate tz) L
      = L.map (applyMeals startDate endDate tz meals) := by
  induction meals generalizing L with
  | nil =>
      simp only [applyMeals, List.foldl_nil]
      exact (List.map_id L).symm
  | cons m ms ih =>
      simp only [List.foldl_cons]
      rw [foldMeal_eq_map startDate endDate tz L m (hcov m (List.mem_cons_self m ms))]
      have hkeys : (L.map (fun b => addMealIfMatch startDate endDate tz b m)).map
          (fun b => b.date) = L.map (fun b => b.date) := by
        rw [List.map_map]
        exact List.map_congr_left (fun b _ => addMealIfMatch_date _ _ _ _ _)
      rw [ih _ (fun m' hm' hr => by
        rw [hkeys]
        exact hcov m' (List.mem_cons_of_mem m hm') hr)]
      rw [List.map_map]
      rfl

theorem insertByDate_of_le (b : NutritionSummary) (l : List NutritionSummary)
    (h : ∀ c ∈ l, b.date ≤ c.date) : insertByDate b l = b :: l := by
  cases l with
  | nil => rfl
  | cons c cs =>
      simp only [insertByDate]
      rw [if_pos (h c (List.mem_cons_self c cs))]

theorem sortByDate_of_sorted (l : List NutritionSummary)
    (h : l.Pairwise (fun a b => a.date ≤ b.date)) : sortByDate l = l := by
  induction l with
  | nil => rfl
  | cons b bs ih =>
      simp only [sortByDate, List.foldr_cons] at *
      rw [ih h.of_cons]
      exact insertByDate_of_le b bs (List.pairwise_cons.mp h).1

theorem seed_dates (startDate endDate : Int) :
    ((dayRange startDate endDate).map emptyBucket).map (fun b => b.date)
      = dayRange startDate endDate := by
  rw [List.map_map]
  exact List.map_id _

theorem fetchDaily_eq_map (startDate endDate : Int) (tz : Timezone)
    (meals : List Meal) :
    fetchNutritionSummaryDaily startDate endDate tz meals
      = (dayRange startDate endDate).map
          (fun d => applyMeals startDate endDate tz meals (emptyBucket d)) := by
  unfold fetchNutritionSummaryDaily
  rw [foldl_foldMeal_eq startDate endDate tz meals _
    (fun m _ hr => by rw [seed_dates]; exact mem_dayRange.mpr hr)]
  rw [List.map_map]
  have hdates : ((dayRange startDate endDate).map
      (fun d => applyMeals startDate endDate tz meals (emptyBucket d))).map
      (fun b => b.date) = dayRange startDate endDate := by
    rw [List.map_map]
    refine List.map_congr_left (fun d _ => ?_) |>.trans (List.map_id _)
    simp only [Function.comp]
    rw [applyMeals_date]
    rfl
  refine sortByDate_of_sorted _ ?_
  have hp : ((dayRange startDate endDate).map
      (fun d => applyMeals startDate endDate tz meals (emptyBucket d))).Pairwise
      (fun a b => a.date ≤ b.date) := by
    rw [List.pairwise_map]
    refine (dayRange_pairwise startDate endDate).imp ?_
    intro a b hab
    rw [applyMeals_date, applyMeals_date]
    simpa [emptyBucket] using le_of_lt hab
  exact hp

theorem fetchDaily_dates (startDate endDate : Int) (tz : Timezone)
    (meals : List Meal) :
    (fetchNutritionSummaryDaily startDate endDate tz meals).map (fun b => b.date)
      = dayRange startDate endDate := by
  rw [fetchDaily_eq_map, List.map_map]
  refine List.map_congr_left (fun d _ => ?_) |>.trans (List.map_id _)
  simp only [Function.comp]
  rw [applyMeals_date]
  rfl

theorem addMealIfMatch_eq (startDate endDate : Int) (tz : Timezone)
    (b : NutritionSummary) (m : Meal) :
    addMealIfMatch startDate endDate tz b m
      = if matchesBucket startDate endDate tz b.date m then
          addMealToBucket b m
        else b := by
  simp only [addMealIfMatch, matchesBucket]
  by_cases h : startDate ≤ convertUTCToLocal tz m.logged_at ∧
      convertUTCToLocal tz m.logged_at ≤ endDate ∧
      convertUTCToLocal tz m.logged_at = b.date
  · rw [if_pos h, if_pos (by simp only [decide_eq_true_eq]; exact h)]
  · rw [if_neg h, if_neg (by simp only [decide_eq_true_eq]; exact h)]

theorem applyMeals_meal_count (startDate endDate : Int) (tz : Timezone)
    (meals : List Meal) (b : NutritionSummary) :
    (applyMeals startDate endDate tz meals b).meal_count
      = b.meal_count + meals.countP (matchesBucket startDate endDate tz b.date) := by
  induction meals generalizing b with
  | nil => simp [applyMeals]
  | cons m ms ih =>
      simp only [applyMeals, List.foldl_cons] at *
      rw [ih, addMealIfMatch_date, addMealIfMatch_eq, List.countP_cons]
      by_cases hm : matchesBucket startDate endDate tz b.date m
      · rw [if_pos hm]
        simp [addMealToBucket, hm]
        omega
      · rw [if_neg hm]
        simp [hm]

theorem applyMeals_calories (startDate endDate : Int) (tz : Timezone)
    (meals : List Meal) (b : NutritionSummary) :
    (applyMeals startDate endDate tz meals b).total_calories
      = b.total_calories
        + (meals.map (fun m =>
            if matchesBucket startDate endDate tz b.date m then
              m.total_calories.getD 0
            else 0)).sum := by
  induction meals generalizing b with
  | nil => simp [applyMeals]
  | cons m ms ih =>
      simp only [applyMeals, List.foldl_cons, List.map_cons, List.sum_cons] at *
      rw [ih, addMealIfMatch_date, addMealIfMatch_eq]
      by_cases hm : matchesBucket startDate endDate tz b.date m
      · rw [if_pos hm, if_pos hm]
        simp [addMealToBucket]
        ring
      · rw [if_neg hm, if_neg hm]
        ring

theorem applyMeals_of_no_match (startDate endDate : Int) (tz : Timezone)
    (meals : List Meal) (b : NutritionSummary)
    (h : ∀ m ∈ meals, matchesBucket startDate endDate tz b.date m = false) :
    applyMeals startDate endDate tz meals b = b := by
  induction meals generalizing b with
  | nil => rfl
  | cons m ms ih =>
      simp only [applyMeals, List.foldl_cons] at *
      rw [addMealIfMatch_eq, h m (List.mem_cons_self m ms)]
      simp only [Bool.false_eq_true, if_false]
      exact ih b (fun m' hm' => h m' (List.mem_cons_of_mem m hm'))

theorem sum_map_ite_eq_mem {M : Type} [AddCommMonoid M]
    (l : List Int) (x : Int) (c : M) (hl : l.Pairwise (· < ·)) :
    (l.map (fun d => if x = d then c else 0)).sum = if x ∈ l then c else 0 := by
  induction l with
  | nil => simp
  | cons a as ih =>
      simp only [List.map_cons, List.sum_cons, List.mem_cons]
      rw [ih (List.Pairwise.of_cons hl)]
      by_cases hxa : x = a
      · have hnot : x ∉ as := by
          intro hmem
          have := (List.pairwise_cons.mp hl).1 x hmem
          omega
        rw [if_pos hxa, if_neg hnot, if_pos (Or.inl hxa), add_zero]
      · rw [if_neg hxa]
        by_cases hxas : x ∈ as
        · rw [if_pos hxas, if_pos (Or.inr hxas), zero_add]
        · rw [if_neg hxas, if_neg (by tauto), zero_add]

theorem matchesBucket_ite_eq {M : Type} [AddCommMonoid M]
    (startDate endDate : Int) (tz : Timezone) (d : Int) (m : Meal) (c : M) :
    (if matchesBucket startDate endDate tz d m then c else 0)
      = if inRangeMeal startDate endDate tz m then
          (if convertUTCToLocal tz m.logged_at = d then c else 0)
        else 0 := by
  simp only [matchesBucket, inRangeMeal]
  by_cases h1 : startDate ≤ convertUTCToLocal tz m.logged_at ∧
      convertUTCToLocal tz m.logged_at ≤ endDate
  · by_cases h2 : convertUTCToLocal tz m.logged_at = d
    · rw [if_pos (by simp only [decide_eq_true_eq]; exact ⟨h1.1, h1.2, h2⟩),
        if_pos (by simp only [decide_eq_true_eq]; exact h1), if_pos h2]
    · rw [if_neg (by simp only [decide_eq_true_eq]; tauto),
        if_pos (by simp only [decide_eq_true_eq]; exact h1), if_neg h2]
  · rw [if_neg (by simp only [decide_eq_true_eq]; tauto),
      if_neg (by simp only [decide_eq_true_eq]; exact h1)]

theorem sum_over_range {M : Type} [AddCommMonoid M]
    (startDate endDate : Int) (tz : Timezone) (meals : List Meal)
    (f : Meal → M) :
    ((dayRange startDate endDate).map (fun d =>
        (meals.map (fun m =>
          if matchesBucket startDate endDate tz d m then f m else 0)).sum)).sum
      = (meals.map (fun m =>
          if inRangeMeal startDate endDate tz m then f m else 0)).sum := by
  induction meals with
  | nil => simp
  | cons m ms ih =>
      simp only [List.map_cons, List.sum_cons]
      have hsplit : ((dayRange startDate endDate).map (fun d =>
          (if matchesBucket startDate endDate tz d m then f m else 0)
            + (ms.map (fun m' =>
                if matchesBucket startDate endDate tz d m' then f m' else 0)).sum)).sum
          = ((dayRange startDate endDate).map (fun d =>
              if matchesBucket startDate endDate tz d m then f m else 0)).sum
            + ((dayRange startDate endDate).map (fun d =>
                (ms.map (fun m' =>
                  if matchesBucket startDate endDate tz d m' then f m' else 0)).sum)).sum := by
        rw [← List.sum_map_add]
      rw [hsplit, ih]
      congr 1
      have hpt : (dayRange startDate endDate).map (fun d =>
            if matchesBucket startDate endDate tz d m then f m else 0)
          = (dayRange startDate endDate).map (fun d =>
              if inRangeMeal startDate endDate tz m then
                (if convertUTCToLocal tz m.logged_at = d then f m else 0)
              else 0) := by
        exact List.map_congr_left (fun d _ =>
          matchesBucket_ite_eq startDate endDate tz d m (f m))
      rw [hpt]
      by_cases hin : inRangeMeal startDate endDate tz m
      · simp only [hin, if_true]
        rw [sum_map_ite_eq_mem _ _ _ (dayRange_pairwise startDate endDate)]
        rw [if_pos (mem_dayRange.mpr (by
          simpa only [inRangeMeal, decide_eq_true_eq] using hin))]
      · simp only [hin, Bool.false_eq_true, if_false]
        simp

theorem countP_eq_sum_map {α : Type} (l : List α) (p : α → Bool) :
    l.countP p = (l.map (fun x => if p x then 1 else 0)).sum := by
  induction l with
  | nil => rfl
  | cons a as ih =>
      simp only [List.countP_cons, List.map_cons, List.sum_cons, ih]
      by_cases h : p a
      · simp [h]
        omega
      · simp [h]

/-- C1: for every date range of N inclusive days, every timezone and
every record set, the daily aggregation emits exactly N buckets, one per
calendar day of `[startDate, endDate]`, in strictly ascending date order
(hence gap-free and duplicate-free), and each day with no attributed
record keeps the zero-seeded bucket.  The timezone is arbitrary (so any
DST offset pattern is covered), and `meals` may be empty. -/
theorem daily_buckets_gap_free (startDate endDate : Int) (tz : Timezone)
    (meals : List Meal) (_h : startDate ≤ endDate) :
    ((fetchNutritionSummaryDaily startDate endDate tz meals).map (fun b => b.date)
        = dayRange startDate endDate)
    ∧ (fetchNutritionSummaryDaily startDate endDate tz meals).length
        = (endDate - startDate + 1).toNat
    ∧ ((fetchNutritionSummaryDaily startDate endDate tz meals).map
        (fun b => b.date)).Chain' (· < ·)
    ∧ (∀ d : Int, (startDate ≤ d ∧ d ≤ endDate) ↔
        d ∈ (fetchNutritionSummaryDaily startDate endDate tz meals).map
          (fun b => b.date))
    ∧ ∀ b ∈ fetchNutritionSummaryDaily startDate endDate tz meals,
        (∀ m ∈ meals, convertUTCToLocal tz m.logged_at ≠ b.date) →
        b = emptyBucket b.date := by
  refine ⟨fetchDaily_dates startDate endDate tz meals, ?_, ?_, ?_, ?_⟩
  · have := congrArg List.length (fetchDaily_dates startDate endDate tz meals)
    rw [List.length_map] at this
    rw [this, dayRange_length]
  · rw [fetchDaily_dates]
    exact List.Pairwise.chain' (dayRange_pairwise startDate endDate)
  · intro d
    rw [fetchDaily_dates]
    exact mem_dayRange.symm
  · intro b hb hnone
    rw [fetchDaily_eq_map] at hb
    obtain ⟨d, _, rfl⟩ := List.mem_map.mp hb
    rw [applyMeals_date]
    refine applyMeals_of_no_match startDate endDate tz meals _ (fun m hm => ?_)
    simp only [matchesBucket, decide_eq_false_iff_not]
    rintro ⟨_, _, hd⟩
    exact hnone m hm (by rw [applyMeals_date]; exact hd)

/-- C2: every record whose local calendar date (in the effective
timezone) falls in `[startDate, endDate]` is folded into exactly one
bucket — the one keyed by that local date, whose `meal_count` counts
exactly the records attributed to it and whose calorie total sums their
(null-coerced) calories — so the bucket calorie totals sum to the
calories of exactly the in-range records, the bucket meal counts sum to
the number of in-range records, out-of-range records contribute nothing,
and no bucket key repeats. -/
theorem daily_conservation (startDate endDate : Int) (tz : Timezone)
    (meals : List Meal) (_h : startDate ≤ endDate) :
    (((fetchNutritionSummaryDaily startDate endDate tz meals).map
        (fun b => b.total_calories)).sum
      = (meals.map (fun m =>
          if inRangeMeal startDate endDate tz m then m.total_calories.getD 0
          else 0)).sum)
    ∧ (((fetchNutritionSummaryDaily startDate endDate tz meals).map
          (fun b => b.meal_count)).sum
        = meals.countP (inRangeMeal startDate endDate tz))
    ∧ (∀ b ∈ fetchNutritionSummaryDaily startDate endDate tz meals,
        b.meal_count = meals.countP (matchesBucket startDate endDate tz b.date)
        ∧ b.total_calories = (meals.map (fun m =>
            if matchesBucket startDate endDate tz b.date m then
              m.total_calories.getD 0
            else 0)).sum)
    ∧ ((fetchNutritionSummaryDaily startDate endDate tz meals).map
        (fun b => b.date)).Nodup := by
  refine ⟨?_, ?_, ?_, ?_⟩
  · rw [fetchDaily_eq_map, List.map_map]
    have hpt : (dayRange startDate endDate).map
        ((fun b => b.total_calories) ∘
          (fun d => applyMeals startDate endDate tz meals (emptyBucket d)))
        = (dayRange startDate endDate).map (fun d =>
            (meals.map (fun m =>
              if matchesBucket startDate endDate tz d m then
                m.total_calories.getD 0
              else 0)).sum) := by
      refine List.map_congr_left (fun d _ => ?_)
      simp only [Function.comp]
      rw [applyMeals_calories]
      simp [emptyBucket]
    rw [hpt, sum_over_range]
  · rw [fetchDaily_eq_map, List.map_map]
    have hpt : (dayRange startDate endDate).map
        ((fun b => b.meal_count) ∘
          (fun d => applyMeals startDate endDate tz meals (emptyBucket d)))
        = (dayRange startDate endDate).map (fun d =>
            (meals.map (fun m =>
              if matchesBucket startDate endDate tz d m then 1 else 0)).sum) := by
      refine List.map_congr_left (fun d _ => ?_)
      simp only [Function.comp]
      rw [applyMeals_meal_count]
      simp only [emptyBucket, Nat.zero_add]
      exact countP_eq_sum_map meals _
    rw [hpt, sum_over_range, ← countP_eq_sum_map]
  · intro b hb
    rw [fetchDaily_eq_map] at hb
    obtain ⟨d, _, rfl⟩ := List.mem_map.mp hb
    constructor
    · rw [applyMeals_meal_count, applyMeals_date]
      simp [emptyBucket]
    · rw [applyMeals_calories, applyMeals_date]
      simp [emptyBucket]
  · rw [fetchDaily_dates]
    exact (dayRange_pairwise startDate endDate).imp (fun hlt => by omega)

/-- C9: the emitted bucket-key sequence of the daily aggregation is the
calendar-day enumeration of the range endpoints and does not depend on
the effective (user-selected) timezone: two runs over the same range and
records that differ only in the timezone produce identical key
sequences. -/
theorem bucket_keys_timezone_invariant (startDate endDate : Int)
    (tz1 tz2 : Timezone) (meals : List Meal) :
    ((fetchNutritionSummaryDaily startDate endDate tz1 meals).map (fun b => b.date)
      = (fetchNutritionSummaryDaily startDate endDate tz2 meals).map (fun b => b.date))
    ∧ ((fetchNutritionSummaryDaily startDate endDate tz1 meals).map (fun b => b.date)
        = dayRange startDate endDate) := by
  refine ⟨?_, fetchDaily_dates startDate endDate tz1 meals⟩
  rw [fetchDaily_dates, fetchDaily_dates]

/-- C3: the record logged at `2025-01-01T23:30:00Z` has local date
`2025-01-01` under effective timezone `America/Los_Angeles` (offset −8h
at that instant) and local date `2025-01-02` under `Asia/Kolkata`
(offset +5:30): the bucket key comes from the timezone-shifted civil
date, not from truncating the UTC string, and changing only the
effective timezone moves the record from the `2025-01-01` bucket to the
`2025-01-02` bucket of the same aggregation. -/
theorem timezone_boundary_moves_bucket :
    convertUTCToLocal America_Los_Angeles c3meal.logged_at = daysFromCivil 2025 1 1
    ∧ convertUTCToLocal Asia_Kolkata c3meal.logged_at = daysFromCivil 2025 1 2
    ∧ (fetchNutritionSummaryDaily (daysFromCivil 2025 1 1) (daysFromCivil 2025 1 2)
        America_Los_Angeles [c3meal]).map (fun b => b.meal_count) = [1, 0]
    ∧ (fetchNutritionSummaryDaily (daysFromCivil 2025 1 1) (daysFromCivil 2025 1 2)
        Asia_Kolkata [c3meal]).map (fun b => b.meal_count) = [0, 1] := by
  decide

theorem foldl_totalStatsStep (l : List NutritionSummary) (acc : TotalStats) :
    l.foldl totalStatsStep acc =
      { totalCalories := acc.totalCalories + (l.map (fun b => b.total_calories)).sum
        totalProtein := acc.totalProtein + (l.map (fun b => b.total_protein)).sum
        totalCarbs := acc.totalCarbs + (l.map (fun b => b.total_carbs)).sum
        totalFat := acc.totalFat + (l.map (fun b => b.total_fat)).sum
        totalMeals := acc.totalMeals + (l.map (fun b => b.meal_count)).sum
        daysLogged := acc.daysLogged
          + l.countP (fun b => decide (0 < b.meal_count)) } := by
  induction l generalizing acc with
  | nil => cases acc <;> simp
  | cons b bs ih =>
      simp only [List.foldl_cons, ih, totalStatsStep, List.map_cons,
        List.sum_cons, List.countP_cons, decide_eq_true_eq]
      refine TotalStats.mk.injEq .. |>.mpr ?_ |>.symm |>.symm
      refine ⟨by ring, by ring, by ring, by ring, by omega, ?_⟩
      by_cases hb : 0 < b.meal_count
      · simp only [hb, if_pos, gt_iff_lt, decide_eq_true_eq]
        omega
      · simp only [hb, gt_iff_lt, decide_eq_true_eq, if_neg]
        omega

/-- `avgDailyCalories` as a single conditional expression. -/
theorem avgDailyCalories_eq (s : TotalStats) :
    avgDailyCalories s
      = (if s.daysLogged = 0 then 0
         else round ((s.totalCalories : ℚ) / (s.daysLogged : ℚ))) := by
  unfold avgDailyCalories
  by_cases h0 : s.daysLogged = 0
  · rw [if_neg (by omega), if_pos h0]
  · rw [if_pos (by omega), if_neg h0]

/-- C7 (amended): each nutrient total of `getTotalStats` is the sum of
that nutrient over the buckets, `totalMeals` is the sum of meal counts,
`daysLogged` counts the buckets with a positive meal count, and
`avgDailyCalories` is `totalCalories / daysLogged` rounded half-up to the
nearest integer (`Math.round`), with 0 when `daysLogged = 0`. -/
theorem rollup_stats_spec (l : List NutritionSummary) :
    (getTotalStats l).totalCalories = (l.map (fun b => b.total_calories)).sum
    ∧ (getTotalStats l).totalProtein = (l.map (fun b => b.total_protein)).sum
    ∧ (getTotalStats l).totalCarbs = (l.map (fun b => b.total_carbs)).sum
    ∧ (getTotalStats l).totalFat = (l.map (fun b => b.total_fat)).sum
    ∧ (getTotalStats l).totalMeals = (l.map (fun b => b.meal_count)).sum
    ∧ (getTotalStats l).daysLogged = l.countP (fun b => decide (0 < b.meal_count))
    ∧ avgDailyCalories (getTotalStats l)
        = (if (getTotalStats l).daysLogged = 0 then 0
           else round (((getTotalStats l).totalCalories : ℚ)
             / ((getTotalStats l).daysLogged : ℚ))) := by
  refine ⟨?_, ?_, ?_, ?_, ?_, ?_, avgDailyCalories_eq _⟩ <;>
    (unfold getTotalStats; rw [foldl_totalStatsStep])
  all_goals simp

/-- C7 counterexample: on buckets with calories `[500, 1]` and meal
counts `[1, 1]` we get `totalCalories = 501` and `daysLogged = 2`, and
the code (`Math.round(501 / 2)`) yields `251`, which differs from the
claimed exact quotient `250.5`: `avgDailyCalories` is not `totalCalories`
divided by `daysLogged`. -/
theorem rollup_avg_counterexample :
    ((avgDailyCalories (getTotalStats c7buckets) : ℚ)
      ≠ ((getTotalStats c7buckets).totalCalories : ℚ)
          / ((getTotalStats c7buckets).daysLogged : ℚ))
    ∧ avgDailyCalories (getTotalStats c7buckets) = 251
    ∧ (getTotalStats c7buckets).totalCalories = 501
    ∧ (getTotalStats c7buckets).daysLogged = 2 := by
  have hstats : getTotalStats c7buckets =
      { totalCalories := 501, totalProtein := 0, totalCarbs := 0
        totalFat := 0, totalMeals := 2, daysLogged := 2 } := by decide
  have havg : avgDailyCalories (getTotalStats c7buckets) = 251 := by
    rw [hstats]
    unfold avgDailyCalories
    rw [if_pos (by decide)]
    have h1 : ((501 : Int) : ℚ) / ((2 : Nat) : ℚ) + 1 / 2 = ((251 : Int) : ℚ) := by
      norm_num
    rw [round_eq, h1, Int.floor_intCast]
  refine ⟨?_, havg, by rw [hstats], by rw [hstats]⟩
  rw [havg, hstats]
  norm_num

/-- C6: for the `daily` period the range-allowed predicate is `false`
exactly when the inclusive day span exceeds `MAX_DAILY_CHART_POINTS`
(= 29) days — in particular `false` for a 30-day span and `true` for a
29-day span — and it is `true` for every non-`daily` period regardless
of span. -/
theorem range_guard_spec :
    (∀ startDate endDate : Int,
      isRangeAllowed Period.daily startDate endDate = false ↔
        MAX_DAILY_CHART_POINTS < endDate - startDate + 1)
    ∧ (∀ startDate endDate : Int, endDate - startDate + 1 = 30 →
        isRangeAllowed Period.daily startDate endDate = false)
    ∧ (∀ startDate endDate : Int, endDate - startDate + 1 = 29 →
        isRangeAllowed Period.daily startDate endDate = true)
    ∧ (∀ (p : Period) (startDate endDate : Int), p ≠ Period.daily →
        isRangeAllowed p startDate endDate = true) := by
  have hd : ∀ startDate endDate : Int,
      isRangeAllowed Period.daily startDate endDate = false ↔
        MAX_DAILY_CHART_POINTS < endDate - startDate + 1 := by
    intro startDate endDate
    simp [isRangeAllowed, isRangeDisabled]
  refine ⟨hd, ?_, ?_, ?_⟩
  · intro startDate endDate h30
    rw [hd]
    unfold MAX_DAILY_CHART_POINTS
    omega
  · intro startDate endDate h29
    simp [isRangeAllowed, isRangeDisabled, MAX_DAILY_CHART_POINTS]
    omega
  · intro p startDate endDate hp
    cases p with
    | daily => exact absurd rfl hp
    | weekly => rfl
    | monthly => rfl
    | yearly => rfl

/-- C6 witness: a 30-day span is rejected for `daily`, a 29-day span is
allowed, and an arbitrary span is allowed for `weekly`. -/
theorem range_guard_spec_witness :
    isRangeAllowed Period.daily 0 29 = false
    ∧ isRangeAllowed Period.daily 0 28 = true
    ∧ isRangeAllowed Period.weekly 0 364 = true :=
  ⟨range_guard_spec.2.1 0 29 (by decide),
   range_guard_spec.2.2.1 0 28 (by decide),
   range_guard_spec.2.2.2 Period.weekly 0 364 (by decide)⟩

/-- C8: when `isAutoDetect` is true, every `getCurrentTimezone` call
returns the device zone passed at that call (two calls under two device
zones return the two zones — nothing is cached); when `isAutoDetect` is
false, every call returns the stored zone, whatever the device zone. -/
theorem auto_detect_tracking (s : TzState) (d1 d2 : String) :
    (s.isAutoDetect = true →
      getCurrentTimezone d1 s = d1 ∧ getCurrentTimezone d2 s = d2)
    ∧ (s.isAutoDetect = false →
      getCurrentTimezone d1 s = s.timezone
        ∧ getCurrentTimezone d2 s = s.timezone) := by
  unfold getCurrentTimezone
  constructor <;> intro h <;> rw [h] <;> exact ⟨rfl, rfl⟩

/-- C8 witness: with auto-detect on, two calls under device zones
`America/New_York` then `Asia/Tokyo` return those two zones; with
auto-detect off and stored zone `Europe/Paris`, both calls return
`Europe/Paris`. -/
theorem auto_detect_tracking_witness :
    (getCurrentTimezone "America/New_York" ⟨"Europe/Paris", true⟩
        = "America/New_York"
      ∧ getCurrentTimezone "Asia/Tokyo" ⟨"Europe/Paris", true⟩ = "Asia/Tokyo")
    ∧ (getCurrentTimezone "America/New_York" ⟨"Europe/Paris", false⟩
        = "Europe/Paris"
      ∧ getCurrentTimezone "Asia/Tokyo" ⟨"Europe/Paris", false⟩
        = "Europe/Paris") :=
  ⟨(auto_detect_tracking ⟨"Europe/Paris", true⟩ "America/New_York" "Asia/Tokyo").1 rfl,
   (auto_detect_tracking ⟨"Europe/Paris", false⟩ "America/New_York" "Asia/Tokyo").2 rfl⟩

/-- C10: `setAutoDetect false` clears the flag and leaves the stored
timezone unchanged; `setAutoDetect true` sets the flag and overwrites
the stored timezone with the current device zone.  The resulting state
is fully determined (the store state has exactly these two fields), so
nothing else is modified. -/
theorem set_auto_detect_frame (device : String) (s : TzState) :
    setAutoDetect device false s
        = { timezone := s.timezone, isAutoDetect := false }
    ∧ setAutoDetect device true s
        = { timezone := device, isAutoDetect := true } :=
  ⟨rfl, rfl⟩

/-- C4 counterexample: when the meal fetch fails, the `catch` block runs
`setMeals([])`: the previously displayed (non-empty) meal list is
replaced by a blank list, and the resulting state is identical to the
state after a *successful* fetch that returned no rows — the failure is
not surfaced as an outcome distinct from an empty result. -/
theorem error_swallowed_counterexample :
    fetchMealsUpdate c4prevMeals 0 2 UTCZone (Except.error "network failure") = []
    ∧ c4prevMeals ≠ []
    ∧ fetchMealsUpdate c4prevMeals 0 2 UTCZone (Except.error "network failure")
        = fetchMealsUpdate c4prevMeals 0 2 UTCZone (Except.ok []) :=
  ⟨rfl, by decide, rfl⟩

/-- C4 (amended): on a failed fetch, `fetchNutritionSummary` leaves the
previous summary state intact but swallows the error (it is only
logged, and no failure outcome distinct from an empty result reaches the
caller), while `fetchMeals` replaces the previously displayed meal list
with the empty list. -/
theorem error_handling_actual (prevSummary : List NutritionSummary)
    (prevMeals : List Meal) (startDate endDate : Int) (tz : Timezone)
    (e : String) :
    fetchNutritionSummaryUpdate prevSummary startDate endDate tz (Except.error e)
        = prevSummary
    ∧ fetchMealsUpdate prevMeals startDate endDate tz (Except.error e) = [] :=
  ⟨rfl, rfl⟩

/-- C5 counterexample: request A (range `[0, 1]`) is initiated before
request B (range `[0, 2]`), and A resolves after B, so the completions
arrive in the order B, A.  Each completion runs the unguarded
`setSummaryData`, so the rendered state ends as A's stale result, which
differs from B's result — the claim that the state reflects B fails. -/
theorem stale_response_counterexample :
    renderAfterCompletions [] [c5resultB, c5resultA] = c5resultA
    ∧ c5resultA ≠ c5resultB :=
  ⟨rfl, by decide⟩

/-- C5 (amended): with no request token or cancellation,
the rendered summary state always reflects the most recently *resolved*
request (the last completion wins), not the most recently initiated one;
a stale in-flight fetch that resolves after a newer request overwrites
the newer result. -/
theorem stale_response_actual (s0 : List NutritionSummary)
    (completions : List (List NutritionSummary)) :
    renderAfterCompletions s0 completions = completions.getLastD s0 := by
  induction completions generalizing s0 with
  | nil => rfl
  | cons c cs ih =>
      simp only [renderAfterCompletions, List.foldl_cons, List.getLastD_cons] at *
      exact ih (setSummaryData c s0)

/-- C1 witness: the DST-transition range `2025-03-08 .. 2025-03-10` in
`America/Los_Angeles` with one record yields exactly 3 daily buckets. -/
theorem daily_buckets_gap_free_witness :
    (daysFromCivil 2025 3 8 ≤ daysFromCivil 2025 3 10)
    ∧ (((fetchNutritionSummaryDaily (daysFromCivil 2025 3 8)
          (daysFromCivil 2025 3 10) America_Los_Angeles dstMeals).map
            (fun b => b.date)
          = dayRange (daysFromCivil 2025 3 8) (daysFromCivil 2025 3 10))
      ∧ (fetchNutritionSummaryDaily (daysFromCivil 2025 3 8)
          (daysFromCivil 2025 3 10) America_Los_Angeles dstMeals).length
          = (daysFromCivil 2025 3 10 - daysFromCivil 2025 3 8 + 1).toNat
      ∧ ((fetchNutritionSummaryDaily (daysFromCivil 2025 3 8)
          (daysFromCivil 2025 3 10) America_Los_Angeles dstMeals).map
            (fun b => b.date)).Chain' (· < ·)
      ∧ (∀ d : Int,
          (daysFromCivil 2025 3 8 ≤ d ∧ d ≤ daysFromCivil 2025 3 10) ↔
          d ∈ (fetchNutritionSummaryDaily (daysFromCivil 2025 3 8)
            (daysFromCivil 2025 3 10) America_Los_Angeles dstMeals).map
              (fun b => b.date))
      ∧ ∀ b ∈ fetchNutritionSummaryDaily (daysFromCivil 2025 3 8)
          (daysFromCivil 2025 3 10) America_Los_Angeles dstMeals,
          (∀ m ∈ dstMeals,
            convertUTCToLocal America_Los_Angeles m.logged_at ≠ b.date) →
          b = emptyBucket b.date)
    ∧ (fetchNutritionSummaryDaily (daysFromCivil 2025 3 8)
        (daysFromCivil 2025 3 10) America_Los_Angeles dstMeals).length = 3 :=
  ⟨by decide,
   daily_buckets_gap_free (daysFromCivil 2025 3 8) (daysFromCivil 2025 3 10)
     America_Los_Angeles dstMeals (by decide),
   by decide⟩

/-- C2 witness: over the range `[0, 2]` in UTC, with one record on day 0
(500 kcal), one record on day 1 with a null calorie field, and one
record on day 6 (out of range), the buckets carry calories
`[500, 0, 0]` and meal counts `[1, 1, 0]`. -/
theorem daily_conservation_witness :
    ((0 : Int) ≤ 2)
    ∧ ((((fetchNutritionSummaryDaily 0 2 UTCZone c2meals).map
          (fun b => b.total_calories)).sum
        = (c2meals.map (fun m =>
            if inRangeMeal 0 2 UTCZone m then m.total_calories.getD 0
            else 0)).sum)
      ∧ (((fetchNutritionSummaryDaily 0 2 UTCZone c2meals).map
            (fun b => b.meal_count)).sum
          = c2meals.countP (inRangeMeal 0 2 UTCZone))
      ∧ (∀ b ∈ fetchNutritionSummaryDaily 0 2 UTCZone c2meals,
          b.meal_count = c2meals.countP (matchesBucket 0 2 UTCZone b.date)
          ∧ b.total_calories = (c2meals.map (fun m =>
              if matchesBucket 0 2 UTCZone b.date m then
                m.total_calories.getD 0
              else 0)).sum)
      ∧ ((fetchNutritionSummaryDaily 0 2 UTCZone c2meals).map
          (fun b => b.date)).Nodup)
    ∧ (fetchNutritionSummaryDaily 0 2 UTCZone c2meals).map
        (fun b => b.total_calories) = [500, 0, 0]
    ∧ (fetchNutritionSummaryDaily 0 2 UTCZone c2meals).map
        (fun b => b.meal_count) = [1, 1, 0] :=
  ⟨by decide,
   daily_conservation 0 2 UTCZone c2meals (by decide),
   by decide, by decide⟩
